import Mathlib

/-!
Verification of the technical-indicator engine of the XAUUSD signal-scanner
repository, as a shallow embedding in Lean 4.

Modelling conventions:
* JavaScript numbers are modelled as rationals (`ℚ`).  The source performs
  only field arithmetic, comparisons, `Math.max`/`Math.min`, `Math.abs`,
  `Math.floor` and `toFixed(2)` rounding on the paths the claims touch, all
  of which are exact over `ℚ`; floating-point rounding is not modelled.
* `Math.sqrt` (used only inside the interior branch of the Bollinger-band
  computation, whose numeric value no claim depends on) is modelled by the
  computable rational approximation `Rat.sqrt`.
* Array indexing `a[i]` is modelled by `List.getD i 0`; `a[a.length - 1]`
  by `getLastD 0`.  Out-of-range JavaScript indexing yields `undefined`;
  the model yields the default `0`.  Every theorem below that depends on an
  element's value carries a non-emptiness/length hypothesis making the two
  semantics agree; the one place the divergence is itself the subject of a
  claim (`calculateEMA` on `[]`) only the result's *length* is asserted,
  which is the same in both semantics.
* `x / 0 = 0` over `ℚ` where JavaScript produces `Infinity`/`NaN`; no claim
  below evaluates a division at a zero denominator (the source's own zero
  guards are modelled faithfully).
-/

namespace Signal

/-- Last element of a list, default 0 (JS `a[a.length - 1]`). -/
def lastD (l : List ℚ) : ℚ := l.getLastD 0

/-- JS `a.slice(-p)`: the trailing `p` elements.  JS `slice(-0)` is
`slice(0)`, i.e. the whole array, hence the special case. -/
def sliceLast (l : List ℚ) (p : ℕ) : List ℚ :=
  if p = 0 then l else l.drop (l.length - p)

/-- JS `Math.max(...l)` for the non-empty lists the source applies it to
(the empty case, `-Infinity` in JS, is modelled as 0 and never reached by
any claim). -/
def maxD : List ℚ → ℚ
  | [] => 0
  | x :: xs => xs.foldl max x

/-- JS `Math.min(...l)`, same conventions as `maxD`. -/
def minD : List ℚ → ℚ
  | [] => 0
  | x :: xs => xs.foldl min x

/-- JS `parseFloat(x.toFixed(2))`: round to two decimal places. -/
def round2 (q : ℚ) : ℚ := ((Int.floor (q * 100 + 1/2) : ℤ) : ℚ) / 100

/-- Result record of `calculateMACD` (src/types). -/
structure MACD where
  macdLine : ℚ
  signalLine : ℚ
  histogram : ℚ
deriving DecidableEq, Repr

/-- Result record of `calculateBollingerBands` (src/types). -/
structure BollingerBands where
  upper : ℚ
  middle : ℚ
  lower : ℚ
deriving DecidableEq, Repr

/-- Result record of `calculateStochastic`. -/
structure Stoch where
  k : ℚ
  d : ℚ
deriving DecidableEq, Repr

/-- Cloud status of the Ichimoku result (src/types). -/
inductive CloudStatus where
  | ABOVE
  | BELOW
  | INSIDE
deriving DecidableEq, Repr

/-- Result record of `calculateIchimoku` (src/types). -/
structure Ichimoku where
  tenkan : ℚ
  kijun : ℚ
  cloudStatus : CloudStatus
deriving DecidableEq, Repr

/-- Result record of `calculatePivotPoints` (src/types). -/
structure PivotPoints where
  pivot : ℚ
  r1 : ℚ
  s1 : ℚ
  r2 : ℚ
  s2 : ℚ
deriving DecidableEq, Repr

/-- Embedding of `calculateSMA` (src/utils.ts lines 25-30). -/
def calculateSMA (data : List ℚ) (period : ℕ) : ℚ :=
  if data.length < period then lastD data
  else (sliceLast data period).sum / period

/-- Loop body of `calculateEMA`: given the previous EMA value, emit
`data[i]*k + ema[i-1]*(1-k)` for each remaining element. -/
def emaFrom (k : ℚ) : ℚ → List ℚ → List ℚ
  | _, [] => []
  | prev, x :: xs =>
    let e := x * k + prev * (1 - k)
    e :: emaFrom k e xs

/-- Embedding of `calculateEMA` (src/utils.ts lines 35-44).  The source
seeds `emaArray = [data[0]]` before looping from index 1; on an empty
input the JS seed is `[undefined]` (a one-element array) and the loop body
never runs — modelled here with default element 0, so that the *length*
behaviour matches JS exactly. -/
def calculateEMA (data : List ℚ) (period : ℕ) : List ℚ :=
  let k : ℚ := 2 / ((period : ℚ) + 1)
  data.getD 0 0 :: emaFrom k (data.getD 0 0) data.tail

/-- Embedding of `calculateMACD` (src/utils.ts lines 49-66).  In the
else-branch `prices` has length ≥ 26, so `ema12`/`ema26` both have length
`prices.length` and the source's indexed map `prices.map((_, i) =>
ema12[i] - ema26[i])` is the pointwise difference, written as `zipWith`. -/
def calculateMACD (prices : List ℚ) : MACD :=
  if prices.length < 26 then ⟨0, 0, 0⟩
  else
    let ema12 := calculateEMA prices 12
    let ema26 := calculateEMA prices 26
    let macdLineArr := List.zipWith (fun a b => a - b) ema12 ema26
    let signalLineArr := calculateEMA macdLineArr 9
    let currentMACD := lastD macdLineArr
    let currentSignal := lastD signalLineArr
    ⟨currentMACD, currentSignal, currentMACD - currentSignal⟩

/-- Embedding of `calculateBollingerBands` (src/utils.ts lines 71-85).
`Math.sqrt` is modelled by `Rat.sqrt` (see file header); no claim below
depends on the value computed in this branch. -/
def calculateBollingerBands (prices : List ℚ) (period : ℕ) (multiplier : ℚ) : BollingerBands :=
  if prices.length < period then ⟨lastD prices, lastD prices, lastD prices⟩
  else
    let sma := calculateSMA prices period
    let slice := sliceLast prices period
    let mean := slice.sum / period
    let squaredDiffs := slice.map (fun x => (x - mean) ^ 2)
    let standardDeviation := Rat.sqrt (squaredDiffs.sum / period)
    ⟨sma + standardDeviation * multiplier, sma, sma - standardDeviation * multiplier⟩

/-- True range of bar `i` against the previous close (shared by
`calculateATR` and `calculateADX`). -/
def trueRange (highs lows closes : List ℚ) (i : ℕ) : ℚ :=
  max (highs.getD i 0 - lows.getD i 0)
    (max |highs.getD i 0 - closes.getD (i - 1) 0| |lows.getD i 0 - closes.getD (i - 1) 0|)

/-- Embedding of `calculateATR` (src/utils.ts lines 90-105). -/
def calculateATR (highs lows closes : List ℚ) (period : ℕ) : ℚ :=
  if highs.length < period + 1 then 1
  else
    let trs := (List.range (highs.length - 1)).map (fun j => trueRange highs lows closes (j + 1))
    (sliceLast trs period).sum / period

/-- Embedding of `calculateStochastic` (src/utils.ts lines 110-126).  The
source initialises `k = 50` and overwrites it only when
`highestHigh !== lowestLow`. -/
def calculateStochastic (highs lows closes : List ℚ) (period : ℕ) : Stoch :=
  if highs.length < period then ⟨50, 50⟩
  else
    let currentClose := lastD closes
    let periodHighs := sliceLast highs period
    let periodLows := sliceLast lows period
    let highestHigh := maxD periodHighs
    let lowestLow := minD periodLows
    if highestHigh = lowestLow then ⟨50, 50⟩
    else
      let k := (currentClose - lowestLow) / (highestHigh - lowestLow) * 100
      ⟨k, k⟩

/-- Price difference `prices[i] - prices[i-1]` of `calculateRSI`. -/
def rsiDiff (prices : List ℚ) (i : ℕ) : ℚ := prices.getD i 0 - prices.getD (i - 1) 0

/-- Seeding loop of `calculateRSI`: total gain over the first `period`
diffs (`diff >= 0` contributes the diff, strictly negative diffs 0). -/
def rsiSeedGains (prices : List ℚ) (period : ℕ) : ℚ :=
  ((List.range period).map (fun j =>
    if rsiDiff prices (j + 1) ≥ 0 then rsiDiff prices (j + 1) else 0)).sum

/-- Seeding loop of `calculateRSI`: total loss over the first `period`
diffs. -/
def rsiSeedLosses (prices : List ℚ) (period : ℕ) : ℚ :=
  ((List.range period).map (fun j =>
    if rsiDiff prices (j + 1) ≥ 0 then 0 else |rsiDiff prices (j + 1)|)).sum

/-- Wilder-smoothing step of `calculateRSI` at index `i`. -/
def rsiStep (prices : List ℚ) (period : ℕ) (av : ℚ × ℚ) (i : ℕ) : ℚ × ℚ :=
  let d := rsiDiff prices i
  let currentGain := if d > 0 then d else 0
  let currentLoss := if d < 0 then |d| else 0
  ((av.1 * ((period : ℚ) - 1) + currentGain) / period,
   (av.2 * ((period : ℚ) - 1) + currentLoss) / period)

/-- The (avgGain, avgLoss) pair of `calculateRSI` after Wilder smoothing
over indices `period+1 .. prices.length-1`. -/
def rsiAvgs (prices : List ℚ) (period : ℕ) : ℚ × ℚ :=
  (((List.range (prices.length - (period + 1))).map (fun j => j + period + 1)).foldl
    (rsiStep prices period)
    (rsiSeedGains prices period / period, rsiSeedLosses prices period / period))

/-- Embedding of `calculateRSI` (src/utils.ts lines 131-161): seed
avgGain/avgLoss over the first `period` diffs, Wilder-smooth over the
rest, guard `avgLoss === 0`, round to 2 decimals. -/
def calculateRSI (prices : List ℚ) (period : ℕ) : ℚ :=
  if prices.length < period + 1 then 50
  else if (rsiAvgs prices period).2 = 0 then 100
  else round2 (100 - 100 / (1 + (rsiAvgs prices period).1 / (rsiAvgs prices period).2))

/-- Per-bar +DM of `calculateADX`: the up-move when it beats the down-move
and is positive, else 0. -/
def plusDM (highs lows : List ℚ) (i : ℕ) : ℚ :=
  let upMove := highs.getD i 0 - highs.getD (i - 1) 0
  let downMove := lows.getD (i - 1) 0 - lows.getD i 0
  if upMove > downMove ∧ upMove > 0 then upMove else 0

/-- Per-bar −DM of `calculateADX` (the `else if` branch of the source sets
`minusDM = downMove` exactly when the down-move beats the up-move and is
positive, which already excludes the first branch). -/
def minusDM (highs lows : List ℚ) (i : ℕ) : ℚ :=
  let upMove := highs.getD i 0 - highs.getD (i - 1) 0
  let downMove := lows.getD (i - 1) 0 - lows.getD i 0
  if downMove > upMove ∧ downMove > 0 then downMove else 0

/-- Wilder smoothing of `calculateADX`: sum the first `period` entries,
then fold `smooth = smooth - smooth/period + new` over the rest. -/
def wilderSmooth (l : List ℚ) (period : ℕ) : ℚ :=
  (l.drop period).foldl (fun s x => s - s / period + x) (l.take period).sum

/-- Embedding of `calculateADX` (src/utils.ts lines 169-220): returns the
instantaneous DX (documented simplification), rounded to 2 decimals. -/
def calculateADX (highs lows closes : List ℚ) (period : ℕ) : ℚ :=
  if highs.length < period * 2 then 20
  else
    let idxs := (List.range (highs.length - 1)).map (fun j => j + 1)
    let trs := idxs.map (trueRange highs lows closes)
    let plusDMs := idxs.map (plusDM highs lows)
    let minusDMs := idxs.map (minusDM highs lows)
    let smoothTR := wilderSmooth trs period
    let smoothPlusDM := wilderSmooth plusDMs period
    let smoothMinusDM := wilderSmooth minusDMs period
    let plusDI := smoothPlusDM / smoothTR * 100
    let minusDI := smoothMinusDM / smoothTR * 100
    round2 (|plusDI - minusDI| / (plusDI + minusDI) * 100)

/-- Embedding of `calculateIchimoku` (src/utils.ts lines 225-242). -/
def calculateIchimoku (highs lows : List ℚ) : Ichimoku :=
  let getAverage := fun (period : ℕ) =>
    if highs.length < period then (lastD highs + lastD lows) / 2
    else (maxD (sliceLast highs period) + minD (sliceLast lows period)) / 2
  let tenkan := getAverage 9
  let kijun := getAverage 26
  ⟨tenkan, kijun, if tenkan > kijun then CloudStatus.ABOVE else CloudStatus.BELOW⟩

/-- Embedding of `calculatePivotPoints` (src/utils.ts lines 298-306). -/
def calculatePivotPoints (high low close : ℚ) : PivotPoints :=
  let pivot := (high + low + close) / 3
  ⟨pivot, 2 * pivot - low, 2 * pivot - high, pivot + (high - low), pivot - (high - low)⟩

/-- OHLCV bar (src/types `Candle`); `openP` is the source's `open` field
(`open` is a Lean keyword). -/
structure Candle where
  time : ℤ
  openP : ℚ
  high : ℚ
  low : ℚ
  close : ℚ
  volume : ℚ
deriving DecidableEq, Repr

/-- Default candle used only to totalise JS indexing; every theorem that
touches a candle element guards against the empty case. -/
def cZero : Candle := ⟨0, 0, 0, 0, 0, 0⟩

/-- Market snapshot (src/types `MarketData`). -/
structure MarketData where
  price : ℚ
  change : ℚ
  changePercent : ℚ
  high : ℚ
  low : ℚ
  volume : ℚ
  rsi : ℚ
  ma50 : ℚ
  ema200 : ℚ
  macd : MACD
  bollinger : BollingerBands
  stochK : ℚ
  stochD : ℚ
  atr : ℚ
  adx : ℚ
  ichimoku : Ichimoku
  pivots : PivotPoints
deriving DecidableEq, Repr

/-- Timeframes (src/types `Timeframe`). -/
inductive Timeframe where
  | M1
  | M5
  | M15
deriving DecidableEq, Repr

/-- Signal kinds (src/types `SignalType`). -/
inductive SignalType where
  | BUY
  | SELL
  | NEUTRAL
  | WAIT
deriving DecidableEq, Repr

/-- Signal record (src/types `SignalData`); the free-text `reasoning`
string carries no verifiable content and is omitted. -/
structure SignalData where
  type : SignalType
  confidence : ℤ
  entryPrice : ℚ
  stopLoss : ℚ
  takeProfit : ℚ
  timestamp : ℤ
deriving DecidableEq, Repr

/-- Indicator bundle produced by `processIndicators`. -/
structure Techs where
  rsi : ℚ
  ma50 : ℚ
  ema200 : ℚ
  macd : MACD
  bollinger : BollingerBands
  atr : ℚ
  stoch : Stoch
  adx : ℚ
  ichimoku : Ichimoku
  pivots : PivotPoints
deriving DecidableEq, Repr

/-- Embedding of `processIndicators` (src/App.tsx lines 153-177).  The
source's `ema200Arr[last] || ma50` falls back to `ma50` when the last EMA
value is falsy (0, or undefined on an empty series — the model's default 0
lands in the same branch). -/
def processIndicators (candles : List Candle) : Techs :=
  let closes := candles.map Candle.close
  let highs := candles.map Candle.high
  let lows := candles.map Candle.low
  let rsi := calculateRSI closes 14
  let ma50 := calculateSMA closes 50
  let ema200Arr := calculateEMA closes 200
  let ema200 := if lastD ema200Arr = 0 then ma50 else lastD ema200Arr
  let macd := calculateMACD closes
  let bollinger := calculateBollingerBands closes 20 2
  let atr := calculateATR highs lows closes 14
  let stoch := calculateStochastic highs lows closes 14
  let adx := calculateADX highs lows closes 14
  let ichimoku := calculateIchimoku highs lows
  let lastCandle := candles.getLastD cZero
  let pivots := calculatePivotPoints lastCandle.high lastCandle.low lastCandle.close
  ⟨rsi, ma50, ema200, macd, bollinger, atr, stoch, adx, ichimoku, pivots⟩

/-- Condition of the tick callback's amend-vs-append test (src/App.tsx
line 244): `lastStored && lastStored.time === newCandle.time`.  An empty
series gives `lastStored === undefined`, hence false. -/
def sameBucket (stored : List Candle) (c : Candle) : Bool :=
  match stored.getLast? with
  | some lastStored => lastStored.time == c.time
  | none => false

/-- Embedding of the candle-series update in the tick callback
(src/App.tsx lines 241-249): amend the last bar in place when the time
bucket matches, otherwise push and `shift()` once the length exceeds the
300-bar buffer. -/
def appendOrAmend (stored : List Candle) (c : Candle) : List Candle :=
  if sameBucket stored c then stored.set (stored.length - 1) c
  else
    let pushed := stored ++ [c]
    if 300 < pushed.length then pushed.drop 1 else pushed

/-- Embedding of the snapshot update in the tick callback (src/App.tsx
lines 250-280): recompute indicators over the updated series and build
the new `MarketData` from the previous snapshot and the new candle. -/
def tickMarketData (prev : MarketData) (stored : List Candle) (newCandle : Candle) : MarketData :=
  let updated := appendOrAmend stored newCandle
  let techs := processIndicators updated
  let prevClose := if 1 < updated.length
    then (updated.getD (updated.length - 2) cZero).close else newCandle.openP
  { price := newCandle.close
    change := newCandle.close - prevClose
    changePercent := if prevClose ≠ 0 then (newCandle.close - prevClose) / prevClose * 100 else 0
    high := max prev.high newCandle.high
    low := min prev.low newCandle.low
    volume := newCandle.volume
    rsi := techs.rsi
    ma50 := techs.ma50
    ema200 := techs.ema200
    macd := techs.macd
    bollinger := techs.bollinger
    stochK := techs.stoch.k
    stochD := techs.stoch.d
    atr := techs.atr
    adx := techs.adx
    ichimoku := techs.ichimoku
    pivots := techs.pivots }

/-- Embedding of the snapshot built on a full history load (src/App.tsx
lines 196-232); the source only runs it when `history.length > 0`.
`history[history.length - 2] || lastCandle` is the last candle itself when
the series has a single bar. -/
def historyMarketData (history : List Candle) : MarketData :=
  let lastCandle := history.getLastD cZero
  let prevCandle := if 2 ≤ history.length then history.getD (history.length - 2) cZero
    else lastCandle
  let techs := processIndicators history
  { price := lastCandle.close
    change := lastCandle.close - prevCandle.close
    changePercent := (lastCandle.close - prevCandle.close) / prevCandle.close * 100
    high := lastCandle.high
    low := lastCandle.low
    volume := lastCandle.volume
    rsi := techs.rsi
    ma50 := techs.ma50
    ema200 := techs.ema200
    macd := techs.macd
    bollinger := techs.bollinger
    stochK := techs.stoch.k
    stochD := techs.stoch.d
    atr := techs.atr
    adx := techs.adx
    ichimoku := techs.ichimoku
    pivots := techs.pivots }

/-- Embedding of the `displayData` memo (src/App.tsx lines 105-132): the
calibration offset added to every price-bearing field before display. -/
def displayData (m : MarketData) (offset : ℚ) : MarketData :=
  { m with
    price := m.price + offset
    high := m.high + offset
    low := m.low + offset
    ma50 := m.ma50 + offset
    ema200 := m.ema200 + offset
    bollinger := ⟨m.bollinger.upper + offset, m.bollinger.middle + offset,
      m.bollinger.lower + offset⟩
    ichimoku := { m.ichimoku with
      tenkan := m.ichimoku.tenkan + offset
      kijun := m.ichimoku.kijun + offset }
    pivots := ⟨m.pivots.pivot + offset, m.pivots.r1 + offset, m.pivots.s1 + offset,
      m.pivots.r2 + offset, m.pivots.s2 + offset⟩ }

/-- Embedding of the `aiData` feature object built in `runBatchScanner`
(src/App.tsx lines 318-339): the offset is added to price, ema200,
ichimoku, pivots and bollinger — the spread keeps every other field
(including high, low and ma50) at its raw value. -/
def aiData (m : MarketData) (offset : ℚ) : MarketData :=
  { m with
    price := m.price + offset
    ema200 := m.ema200 + offset
    ichimoku := { m.ichimoku with
      tenkan := m.ichimoku.tenkan + offset
      kijun := m.ichimoku.kijun + offset }
    pivots := ⟨m.pivots.pivot + offset, m.pivots.r1 + offset, m.pivots.s1 + offset,
      m.pivots.r2 + offset, m.pivots.s2 + offset⟩
    bollinger := ⟨m.bollinger.upper + offset, m.bollinger.middle + offset,
      m.bollinger.lower + offset⟩ }

/-- Rule cascade of `generateOne` (src/services/geminiService.ts lines
158-178): the mutable `type`/`confidence` pair threaded through the
if/else chain, as a pure nested conditional. -/
def mockTypeConf (data : MarketData) : SignalType × ℚ :=
  let trendBullish := data.price > data.ema200 ∧ data.price > data.ichimoku.kijun
  let trendBearish := data.price < data.ema200 ∧ data.price < data.ichimoku.kijun
  let momBullish := data.rsi < 45 ∧ data.macd.histogram > 0
  let momBearish := data.rsi > 55 ∧ data.macd.histogram < 0
  if trendBullish ∧ momBullish then (SignalType.BUY, 80)
  else if trendBearish ∧ momBearish then (SignalType.SELL, 80)
  else if data.adx < 20 then
    if data.price ≤ data.bollinger.lower then (SignalType.BUY, 65)
    else if data.price ≥ data.bollinger.upper then (SignalType.SELL, 65)
    else (SignalType.WAIT, 50)
  else (SignalType.WAIT, 50)

/-- Embedding of `generateOne` (src/services/geminiService.ts lines
158-192).  `Math.random()` is passed in as `jitter ∈ [0,1)` and
`Date.now()` as `timestamp`; neither influences type, entry, stop or
target. -/
def generateOne (data : MarketData) (tf : Timeframe) (jitter : ℚ) (timestamp : ℤ) : SignalData :=
  let tc := mockTypeConf data
  let atrMultiplier : ℚ := if tf = Timeframe.M1 then 3 / 2 else 2
  let slDist := data.atr * atrMultiplier
  let tpDist := slDist * 2
  { type := tc.1
    confidence := Int.floor (tc.2 + jitter * 5)
    entryPrice := data.price
    stopLoss := round2 (data.price + (if tc.1 = SignalType.BUY then -slDist else slDist))
    takeProfit := round2 (data.price + (if tc.1 = SignalType.BUY then tpDist else -tpDist))
    timestamp := timestamp }

/-- Concrete market snapshot used as the evaluation point of several
counterexamples below. -/
def mdEx : MarketData :=
  { price := 100001 / 1000
    change := 0
    changePercent := 0
    high := 110
    low := 90
    volume := 7
    rsi := 50
    ma50 := 101
    ema200 := 200
    macd := ⟨0, 0, 0⟩
    bollinger := ⟨0, 0, 0⟩
    stochK := 50
    stochD := 50
    atr := 1
    adx := 25
    ichimoku := ⟨200, 200, CloudStatus.BELOW⟩
    pivots := ⟨100, 101, 99, 102, 98⟩ }

/-- Concrete candle used by witnesses. -/
def cEx : Candle := ⟨60000, 1, 2, 1, 2, 5⟩

theorem emaFrom_length (k : ℚ) : ∀ (prev : ℚ) (l : List ℚ), (emaFrom k prev l).length = l.length
  | _, [] => rfl
  | prev, x :: xs => by
    simp only [emaFrom, List.length_cons]
    exact congrArg (· + 1) (emaFrom_length k _ xs)

theorem le_foldl_max : ∀ (l : List ℚ) (a b : ℚ), b ≤ a → b ≤ l.foldl max a
  | [], _, _, h => h
  | x :: xs, a, b, h => le_foldl_max xs (max a x) b (h.trans (le_max_left a x))

theorem mem_le_foldl_max : ∀ (l : List ℚ) (a x : ℚ), x ∈ l → x ≤ l.foldl max a
  | y :: ys, a, x, h => by
    rcases List.mem_cons.mp h with h1 | h2
    · exact le_foldl_max ys (max a y) x (h1 ▸ le_max_right a y)
    · exact mem_le_foldl_max ys (max a y) x h2

theorem mem_le_maxD {l : List ℚ} {x : ℚ} (hx : x ∈ l) : x ≤ maxD l := by
  cases l with
  | nil => cases hx
  | cons y ys =>
    rcases List.mem_cons.mp hx with h1 | h2
    · exact le_foldl_max ys y x h1.le
    · exact mem_le_foldl_max ys y x h2

theorem foldl_min_le : ∀ (l : List ℚ) (a b : ℚ), a ≤ b → l.foldl min a ≤ b
  | [], _, _, h => h
  | x :: xs, a, b, h => foldl_min_le xs (min a x) b ((min_le_left a x).trans h)

theorem foldl_min_le_mem : ∀ (l : List ℚ) (a x : ℚ), x ∈ l → l.foldl min a ≤ x
  | y :: ys, a, x, h => by
    rcases List.mem_cons.mp h with h1 | h2
    · exact foldl_min_le ys (min a y) x (h1 ▸ min_le_right a y)
    · exact foldl_min_le_mem ys (min a y) x h2

theorem minD_le_mem {l : List ℚ} {x : ℚ} (hx : x ∈ l) : minD l ≤ x := by
  cases l with
  | nil => cases hx
  | cons y ys =>
    rcases List.mem_cons.mp hx with h1 | h2
    · exact foldl_min_le ys y x h1.ge
    · exact foldl_min_le_mem ys y x h2

theorem getLast?_drop_of_lt {α : Type} :
    ∀ (l : List α) (k : ℕ), k < l.length → (l.drop k).getLast? = l.getLast? := by
  intro l
  induction l with
  | nil => intro k hk; simp at hk
  | cons x xs ih =>
    intro k hk
    cases k with
    | zero => rfl
    | succ m =>
      have hm : m < xs.length := by simpa using hk
      have hxs : xs ≠ [] := by
        cases xs with
        | nil => simp at hm
        | cons b t => simp
      rw [List.drop_succ_cons, ih m hm]
      cases xs with
      | nil => simp at hm
      | cons b t => rw [List.getLast?_cons_cons]

theorem lastD_mem {l : List ℚ} (h : l ≠ []) : lastD l ∈ l := by
  unfold lastD
  rw [List.getLastD_eq_getLast?, List.getLast?_eq_getLast l h]
  exact List.getLast_mem h

theorem lastD_congr_of_getLast? {l m : List ℚ} (h : l.getLast? = m.getLast?) :
    lastD l = lastD m := by
  unfold lastD
  rw [List.getLastD_eq_getLast?, List.getLastD_eq_getLast?, h]

theorem sliceLast_ne_nil {l : List ℚ} {p : ℕ} (hp : 1 ≤ p) (h : l ≠ []) :
    sliceLast l p ≠ [] := by
  unfold sliceLast
  rw [if_neg (by omega)]
  rw [Ne, List.drop_eq_nil_iff]
  have := List.length_pos.mpr h
  omega

theorem lastD_sliceLast {l : List ℚ} {p : ℕ} (hp : 1 ≤ p) (h : l ≠ []) :
    lastD (sliceLast l p) = lastD l := by
  unfold sliceLast
  rw [if_neg (by omega)]
  apply lastD_congr_of_getLast?
  have := List.length_pos.mpr h
  exact getLast?_drop_of_lt l (l.length - p) (by omega)

theorem lastD_mem_sliceLast {l : List ℚ} {p : ℕ} (hp : 1 ≤ p) (h : l ≠ []) :
    lastD l ∈ sliceLast l p := by
  rw [← lastD_sliceLast hp h]
  exact lastD_mem (sliceLast_ne_nil hp h)

theorem lastD_eq_getD : ∀ (l : List ℚ), l ≠ [] → lastD l = l.getD (l.length - 1) 0 := by
  intro l
  induction l with
  | nil => intro h; cases h rfl
  | cons x xs ih =>
    intro _
    cases xs with
    | nil => rfl
    | cons y ys =>
      have h2 : (y :: ys) ≠ [] := by simp
      have : lastD (x :: y :: ys) = lastD (y :: ys) := by
        unfold lastD
        rw [List.getLastD_eq_getLast?, List.getLastD_eq_getLast?, List.getLast?_cons_cons]
      rw [this, ih h2]
      simp only [List.length_cons]
      rw [show ys.length + 1 + 1 - 1 = (ys.length + 1 - 1) + 1 by omega]
      rw [List.getD_cons_succ]

theorem round2_close (q : ℚ) : |round2 q - q| ≤ 1 / 200 := by
  have h1 : ((Int.floor (q * 100 + 1 / 2) : ℤ) : ℚ) ≤ q * 100 + 1 / 2 := Int.floor_le _
  have h2 : q * 100 + 1 / 2 < ((Int.floor (q * 100 + 1 / 2) : ℤ) : ℚ) + 1 :=
    Int.lt_floor_add_one _
  rw [round2, abs_le]
  constructor <;> linarith

theorem foldl_fixed {α : Type} (f : ℚ × ℚ → α → ℚ × ℚ) (z : ℚ × ℚ) :
    ∀ l : List α, (∀ i ∈ l, f z i = z) → l.foldl f z = z
  | [], _ => rfl
  | x :: xs, h => by
    rw [List.foldl_cons, h x (List.mem_cons_self x xs)]
    exact foldl_fixed f z xs (fun i hi => h i (List.mem_cons_of_mem x hi))

/-- C1: for every period `p` and input arrays shorter than `p` (non-empty,
so that "the last close" exists), each indicator returns its documented
warm-up fallback: SMA the last close, Bollinger three bands equal to the
last close, ATR 1, Stochastic k = d = 50, RSI 50 and ADX 20 — no
computation over the insufficient data is performed. -/
theorem C1_warmup_fallbacks (p : ℕ) (closes highs lows : List ℚ)
    (_hne : closes ≠ []) (hc : closes.length < p) (hh : highs.length < p) :
    calculateSMA closes p = lastD closes ∧
    calculateBollingerBands closes p 2 = ⟨lastD closes, lastD closes, lastD closes⟩ ∧
    calculateATR highs lows closes p = 1 ∧
    calculateStochastic highs lows closes p = ⟨50, 50⟩ ∧
    calculateRSI closes p = 50 ∧
    calculateADX highs lows closes p = 20 := by
  refine ⟨?_, ?_, ?_, ?_, ?_, ?_⟩
  · rw [calculateSMA, if_pos hc]
  · rw [calculateBollingerBands, if_pos hc]
  · rw [calculateATR, if_pos (by omega)]
  · rw [calculateStochastic, if_pos hh]
  · rw [calculateRSI, if_pos (by omega)]
  · rw [calculateADX, if_pos (by omega)]

theorem C1_warmup_fallbacks_witness :
    calculateSMA [3] 5 = lastD [3] ∧
    calculateBollingerBands [3] 5 2 = ⟨lastD [3], lastD [3], lastD [3]⟩ ∧
    calculateATR [2] [1] [3] 5 = 1 ∧
    calculateStochastic [2] [1] [3] 5 = ⟨50, 50⟩ ∧
    calculateRSI [3] 5 = 50 ∧
    calculateADX [2] [1] [3] 5 = 20 :=
  C1_warmup_fallbacks 5 [3] [2] [1] (by simp) (by simp) (by simp)

/-- C2 counterexample: `high = 0 ≥ low = 0` satisfies the claim's only
hypothesis, yet with `close = -3` (outside the bar's range) the levels are
not ordered: `r1 < pivot`. -/
theorem C2_counterexample :
    (0 : ℚ) ≥ 0 ∧
      ¬ ((calculatePivotPoints 0 0 (-3)).pivot ≤ (calculatePivotPoints 0 0 (-3)).r1) := by
  refine ⟨le_refl 0, ?_⟩
  norm_num [calculatePivotPoints]

/-- C2 (amended): for `low ≤ close ≤ high` — the candle invariant, which
also forces `high ≥ low` — the pivot levels computed by
`calculatePivotPoints` satisfy `s2 ≤ s1 ≤ pivot ≤ r1 ≤ r2`. -/
theorem C2_pivot_order (high low close : ℚ) (h1 : low ≤ close) (h2 : close ≤ high) :
    (calculatePivotPoints high low close).s2 ≤ (calculatePivotPoints high low close).s1 ∧
    (calculatePivotPoints high low close).s1 ≤ (calculatePivotPoints high low close).pivot ∧
    (calculatePivotPoints high low close).pivot ≤ (calculatePivotPoints high low close).r1 ∧
    (calculatePivotPoints high low close).r1 ≤ (calculatePivotPoints high low close).r2 := by
  simp only [calculatePivotPoints]
  refine ⟨by linarith, by linarith, by linarith, by linarith⟩

theorem C2_pivot_order_witness :
    (calculatePivotPoints 10 5 7).s2 ≤ (calculatePivotPoints 10 5 7).s1 ∧
    (calculatePivotPoints 10 5 7).s1 ≤ (calculatePivotPoints 10 5 7).pivot ∧
    (calculatePivotPoints 10 5 7).pivot ≤ (calculatePivotPoints 10 5 7).r1 ∧
    (calculatePivotPoints 10 5 7).r1 ≤ (calculatePivotPoints 10 5 7).r2 :=
  C2_pivot_order 10 5 7 (by norm_num) (by norm_num)

/-- C3 counterexample: on the empty input array the source seeds the EMA
array with one (undefined) element before the loop ever runs, so the
result has length 1 while the input has length 0. -/
theorem C3_counterexample :
    ¬ ((calculateEMA ([] : List ℚ) 5).length = ([] : List ℚ).length) := by
  simp [calculateEMA, emaFrom]

/-- C3 (amended): for every NON-EMPTY input array and every period, the
EMA series has the same length as the input and its first element is the
first input element exactly. -/
theorem C3_ema_shape (data : List ℚ) (p : ℕ) (h : data ≠ []) :
    (calculateEMA data p).length = data.length ∧
    (calculateEMA data p).headD 0 = data.headD 0 := by
  constructor
  · simp only [calculateEMA, List.length_cons, emaFrom_length]
    cases data with
    | nil => cases h rfl
    | cons x xs => simp
  · cases data with
    | nil => cases h rfl
    | cons x xs => rfl

theorem C3_ema_shape_witness :
    (calculateEMA [1, 2] 3).length = ([1, 2] : List ℚ).length ∧
    (calculateEMA [1, 2] 3).headD 0 = ([1, 2] : List ℚ).headD 0 :=
  C3_ema_shape [1, 2] 3 (by simp)

/-- C5: the candle-series update satisfies the append-or-amend contract:
same time bucket as the stored last candle replaces the last element
(length unchanged), otherwise the candle is appended and the first
element is evicted exactly when the capacity 300 is exceeded; a series of
length at most 300 therefore stays at length at most 300. -/
theorem C5_append_or_amend (stored : List Candle) (c : Candle) :
    appendOrAmend stored c =
      (if sameBucket stored c then stored.dropLast ++ [c]
       else if 300 < stored.length + 1 then (stored ++ [c]).drop 1 else stored ++ [c]) ∧
    (appendOrAmend stored c).length =
      (if sameBucket stored c then stored.length
       else if 300 < stored.length + 1 then stored.length else stored.length + 1) ∧
    (appendOrAmend stored c).length ≤ max stored.length 300 := by
  by_cases hb : sameBucket stored c
  · have hne : stored ≠ [] := by
      intro hnil
      rw [hnil] at hb
      simp [sameBucket] at hb
    have hlen : 0 < stored.length := List.length_pos.mpr hne
    have hset : appendOrAmend stored c = stored.dropLast ++ [c] := by
      rw [appendOrAmend, if_pos hb, List.set_eq_take_append_cons_drop,
        if_pos (show stored.length - 1 < stored.length by omega), List.dropLast_eq_take]
      rw [show stored.length - 1 + 1 = stored.length by omega, List.drop_length]
    refine ⟨by rw [hset, if_pos hb], ?_, ?_⟩
    · rw [if_pos hb, appendOrAmend, if_pos hb, List.length_set]
    · rw [appendOrAmend, if_pos hb, List.length_set]
      exact le_max_left _ _
  · have hlen : (stored ++ [c]).length = stored.length + 1 := by simp
    by_cases h300 : 300 < stored.length + 1
    · have hres : appendOrAmend stored c = (stored ++ [c]).drop 1 := by
        rw [appendOrAmend, if_neg hb]
        simp only [hlen]
        rw [if_pos h300]
      refine ⟨by rw [hres, if_neg hb, if_pos h300], ?_, ?_⟩
      · rw [if_neg hb, if_pos h300, hres, List.length_drop, hlen]
        omega
      · rw [hres, List.length_drop, hlen]
        have : stored.length + 1 - 1 = stored.length := by omega
        rw [this]
        exact le_max_left _ _
    · have hres : appendOrAmend stored c = stored ++ [c] := by
        rw [appendOrAmend, if_neg hb]
        simp only [hlen]
        rw [if_neg h300]
      refine ⟨by rw [hres, if_neg hb, if_neg h300], ?_, ?_⟩
      · rw [if_neg hb, if_neg h300, hres, hlen]
      · rw [hres, hlen]
        have : stored.length + 1 ≤ 300 := by omega
        exact this.trans (le_max_right _ _)

/-- C4 counterexample: with period 1 and a close (2) above the bar's high
(1) — arrays the claim quantifies over but real candles never produce —
both components exceed 100 (%K = %D = 200). -/
theorem C4_counterexample :
    100 < (calculateStochastic [1] [0] [2] 1).k ∧
    100 < (calculateStochastic [1] [0] [2] 1).d := by
  have heval : calculateStochastic [1] [0] [2] 1 = ⟨200, 200⟩ := by
    rw [calculateStochastic, if_neg (by simp)]
    norm_num [lastD, sliceLast, maxD, minD]
  rw [heval]
  norm_num

/-- C4 (amended): for a period of at least 1 and equal-length input arrays
satisfying the per-bar candle invariant `low ≤ close ≤ high`, both
Stochastic components are in [0, 100]. -/
theorem C4_stoch_range (highs lows closes : List ℚ) (p : ℕ) (hp : 1 ≤ p)
    (hlh : highs.length = closes.length) (hll : lows.length = closes.length)
    (hbar : ∀ i, i < closes.length →
      lows.getD i 0 ≤ closes.getD i 0 ∧ closes.getD i 0 ≤ highs.getD i 0) :
    0 ≤ (calculateStochastic highs lows closes p).k ∧
    (calculateStochastic highs lows closes p).k ≤ 100 ∧
    0 ≤ (calculateStochastic highs lows closes p).d ∧
    (calculateStochastic highs lows closes p).d ≤ 100 := by
  by_cases hg : highs.length < p
  · rw [calculateStochastic, if_pos hg]
    norm_num
  · push_neg at hg
    have hn1 : 1 ≤ closes.length := by omega
    have hcne : closes ≠ [] := by
      intro h
      rw [h] at hn1
      simp at hn1
    have hhne : highs ≠ [] := by
      intro h
      rw [h] at hlh
      simp at hlh
      omega
    have hlne : lows ≠ [] := by
      intro h
      rw [h] at hll
      simp at hll
      omega
    have hHH : lastD highs ≤ maxD (sliceLast highs p) :=
      mem_le_maxD (lastD_mem_sliceLast hp hhne)
    have hLL : minD (sliceLast lows p) ≤ lastD lows :=
      minD_le_mem (lastD_mem_sliceLast hp hlne)
    have hbar1 := hbar (closes.length - 1) (by omega)
    have e1 : lastD closes = closes.getD (closes.length - 1) 0 := lastD_eq_getD closes hcne
    have e2 : lastD highs = highs.getD (closes.length - 1) 0 := by
      rw [lastD_eq_getD highs hhne, hlh]
    have e3 : lastD lows = lows.getD (closes.length - 1) 0 := by
      rw [lastD_eq_getD lows hlne, hll]
    have hLc : minD (sliceLast lows p) ≤ lastD closes := by
      rw [e1]
      rw [e3] at hLL
      exact hLL.trans hbar1.1
    have hcH : lastD closes ≤ maxD (sliceLast highs p) := by
      rw [e1]
      rw [e2] at hHH
      exact hbar1.2.trans hHH
    have heval : calculateStochastic highs lows closes p =
        (if maxD (sliceLast highs p) = minD (sliceLast lows p) then (⟨50, 50⟩ : Stoch)
         else ⟨(lastD closes - minD (sliceLast lows p)) /
                 (maxD (sliceLast highs p) - minD (sliceLast lows p)) * 100,
               (lastD closes - minD (sliceLast lows p)) /
                 (maxD (sliceLast highs p) - minD (sliceLast lows p)) * 100⟩) := by
      rw [calculateStochastic, if_neg (not_lt.mpr hg)]
    by_cases heq : maxD (sliceLast highs p) = minD (sliceLast lows p)
    · rw [heval, if_pos heq]
      norm_num
    · rw [heval, if_neg heq]
      have hlt : minD (sliceLast lows p) < maxD (sliceLast highs p) :=
        lt_of_le_of_ne (hLc.trans hcH) (fun h => heq h.symm)
      have hratio0 : 0 ≤ (lastD closes - minD (sliceLast lows p)) /
          (maxD (sliceLast highs p) - minD (sliceLast lows p)) :=
        div_nonneg (by linarith) (by linarith)
      have hratio1 : (lastD closes - minD (sliceLast lows p)) /
          (maxD (sliceLast highs p) - minD (sliceLast lows p)) ≤ 1 :=
        (div_le_one (by linarith)).mpr (by linarith)
      refine ⟨by nlinarith, by nlinarith, by nlinarith, by nlinarith⟩

theorem C4_stoch_range_witness :
    0 ≤ (calculateStochastic [2] [0] [1] 1).k ∧
    (calculateStochastic [2] [0] [1] 1).k ≤ 100 ∧
    0 ≤ (calculateStochastic [2] [0] [1] 1).d ∧
    (calculateStochastic [2] [0] [1] 1).d ≤ 100 :=
  C4_stoch_range [2] [0] [1] 1 (le_refl 1) (by simp) (by simp)
    (by
      intro i hi
      have hi0 : i = 0 := by simpa using hi
      subst hi0
      norm_num)

/-- C6: twenty identical closes at 100 with period 14 drive every diff to
zero, so avgGain = avgLoss = 0 and the explicit `avgLoss === 0` guard
returns RSI = 100 — not the neutral 50. -/
theorem C6_rsi_all_flat :
    calculateRSI (List.replicate 20 100) 14 = 100 ∧
    calculateRSI (List.replicate 20 100) 14 ≠ 50 := by
  have hget : ∀ i : ℕ, i < 20 → (List.replicate 20 (100 : ℚ)).getD i 0 = 100 := by
    intro i hi
    rw [List.getD_eq_getElem?_getD, List.getElem?_replicate, if_pos hi]
    rfl
  have hdiff : ∀ i : ℕ, i < 20 → rsiDiff (List.replicate 20 100) i = 0 := by
    intro i hi
    rw [rsiDiff, hget i hi, hget (i - 1) (by omega)]
    ring
  have hgains : rsiSeedGains (List.replicate 20 100) 14 = 0 := by
    rw [rsiSeedGains]
    apply List.sum_eq_zero
    intro x hx
    rcases List.mem_map.mp hx with ⟨j, hj, rfl⟩
    have hj14 : j < 14 := List.mem_range.mp hj
    rw [hdiff (j + 1) (by omega)]
    simp
  have hlosses : rsiSeedLosses (List.replicate 20 100) 14 = 0 := by
    rw [rsiSeedLosses]
    apply List.sum_eq_zero
    intro x hx
    rcases List.mem_map.mp hx with ⟨j, hj, rfl⟩
    have hj14 : j < 14 := List.mem_range.mp hj
    rw [hdiff (j + 1) (by omega)]
    simp
  have havgs : rsiAvgs (List.replicate 20 100) 14 = (0, 0) := by
    rw [rsiAvgs, hgains, hlosses, zero_div]
    apply foldl_fixed
    intro i hi
    rcases List.mem_map.mp hi with ⟨j, hj, rfl⟩
    have hj5 : j < 5 := by simpa using List.mem_range.mp hj
    rw [rsiStep, hdiff (j + 14 + 1) (by omega)]
    norm_num
  constructor
  · rw [calculateRSI, if_neg (by simp), havgs, if_pos rfl]
  · rw [calculateRSI, if_neg (by simp), havgs, if_pos rfl]
    norm_num

/-- C7: a snapshot built from a streaming tick carries the running session
extremes (max/min of the previous snapshot's high/low and the new
candle's), while a snapshot built from a full history load takes high and
low from the latest bar only. -/
theorem C7_high_low_asymmetry (prev : MarketData) (stored : List Candle) (c : Candle)
    (history : List Candle) (hne : history ≠ []) :
    (tickMarketData prev stored c).high = max prev.high c.high ∧
    (tickMarketData prev stored c).low = min prev.low c.low ∧
    (historyMarketData history).high = (history.getLast hne).high ∧
    (historyMarketData history).low = (history.getLast hne).low := by
  refine ⟨rfl, rfl, ?_, ?_⟩
  · show (history.getLastD cZero).high = (history.getLast hne).high
    rw [List.getLastD_eq_getLast?, List.getLast?_eq_getLast history hne]
    rfl
  · show (history.getLastD cZero).low = (history.getLast hne).low
    rw [List.getLastD_eq_getLast?, List.getLast?_eq_getLast history hne]
    rfl

theorem C7_high_low_asymmetry_witness :
    (tickMarketData mdEx [] cEx).high = max mdEx.high cEx.high ∧
    (tickMarketData mdEx [] cEx).low = min mdEx.low cEx.low ∧
    (historyMarketData [cEx]).high = ([cEx].getLast (by simp)).high ∧
    (historyMarketData [cEx]).low = ([cEx].getLast (by simp)).low :=
  C7_high_low_asymmetry mdEx [] cEx [cEx] (by simp)

/-- C8 counterexample: at a snapshot with price 100.001 and ATR 1 on the
M5 timeframe, the realised stop distance is |102 - 100.001| = 1.999, not
ATR × 2.0 = 2 — the levels are rounded to 2 decimals after the ATR
distance is applied. -/
theorem C8_counterexample :
    |(generateOne mdEx Timeframe.M5 0 0).stopLoss -
        (generateOne mdEx Timeframe.M5 0 0).entryPrice| ≠ mdEx.atr * 2 := by
  have htc : mockTypeConf mdEx = (SignalType.WAIT, 50) := by
    norm_num [mockTypeConf, mdEx]
  have hsl : (generateOne mdEx Timeframe.M5 0 0).stopLoss = 102 := by
    show round2 (mdEx.price +
      (if (mockTypeConf mdEx).1 = SignalType.BUY
       then -(mdEx.atr * (if Timeframe.M5 = Timeframe.M1 then 3 / 2 else 2))
       else mdEx.atr * (if Timeframe.M5 = Timeframe.M1 then 3 / 2 else 2))) = 102
    rw [htc]
    have harg : mdEx.price +
        (if ((SignalType.WAIT, (50 : ℚ))).1 = SignalType.BUY
         then -(mdEx.atr * (if Timeframe.M5 = Timeframe.M1 then 3 / 2 else 2))
         else mdEx.atr * (if Timeframe.M5 = Timeframe.M1 then 3 / 2 else 2)) = 102001 / 1000 := by
      rw [if_neg (show ¬(((SignalType.WAIT, (50 : ℚ))).1 = SignalType.BUY) by decide),
        if_neg (show ¬(Timeframe.M5 = Timeframe.M1) by decide)]
      norm_num [mdEx]
    rw [harg, round2]
    have h1 : (102001 : ℚ) / 1000 * 100 + 1 / 2 = 51003 / 5 := by norm_num
    rw [h1]
    have h2 : Int.floor ((51003 : ℚ) / 5) = 10200 := by
      rw [Int.floor_eq_iff]
      constructor <;> norm_num
    rw [h2]
    norm_num
  have hep : (generateOne mdEx Timeframe.M5 0 0).entryPrice = 100001 / 1000 := rfl
  rw [hsl, hep]
  have habs : |(102 : ℚ) - 100001 / 1000| = 1999 / 1000 := by
    rw [show (102 : ℚ) - 100001 / 1000 = 1999 / 1000 by norm_num]
    exact abs_of_nonneg (by norm_num)
  rw [habs]
  norm_num [mdEx]

/-- C8 (amended): the heuristic derives the levels from the distances
slDistance = ATR × (1.5 for M1, else 2.0) and tpDistance = 2 × slDistance,
applied in the signal's directional sense (entry − slDistance and
entry + tpDistance for BUY, the reverse otherwise) and then ROUNDED to two
decimals, so the realised distances equal the ATR multiples only up to
that rounding of the price levels. -/
theorem C8_sl_tp_levels (data : MarketData) (tf : Timeframe) (jitter : ℚ) (ts : ℤ) :
    (generateOne data tf jitter ts).entryPrice = data.price ∧
    (generateOne data tf jitter ts).stopLoss =
      round2 (data.price +
        (if (generateOne data tf jitter ts).type = SignalType.BUY
         then -(data.atr * (if tf = Timeframe.M1 then 3 / 2 else 2))
         else data.atr * (if tf = Timeframe.M1 then 3 / 2 else 2))) ∧
    (generateOne data tf jitter ts).takeProfit =
      round2 (data.price +
        (if (generateOne data tf jitter ts).type = SignalType.BUY
         then data.atr * (if tf = Timeframe.M1 then 3 / 2 else 2) * 2
         else -(data.atr * (if tf = Timeframe.M1 then 3 / 2 else 2) * 2))) ∧
    |(generateOne data tf jitter ts).stopLoss -
      (data.price +
        (if (generateOne data tf jitter ts).type = SignalType.BUY
         then -(data.atr * (if tf = Timeframe.M1 then 3 / 2 else 2))
         else data.atr * (if tf = Timeframe.M1 then 3 / 2 else 2)))| ≤ 1 / 200 ∧
    |(generateOne data tf jitter ts).takeProfit -
      (data.price +
        (if (generateOne data tf jitter ts).type = SignalType.BUY
         then data.atr * (if tf = Timeframe.M1 then 3 / 2 else 2) * 2
         else -(data.atr * (if tf = Timeframe.M1 then 3 / 2 else 2) * 2)))| ≤ 1 / 200 :=
  ⟨rfl, rfl, rfl, round2_close _, round2_close _⟩

/-- C9 counterexample: the feature object sent to the AI keeps the raw
session high — the offset is NOT added to every price-bearing field on
that path (high, low and ma50 stay uncalibrated). -/
theorem C9_counterexample : (aiData mdEx 1).high ≠ mdEx.high + 1 := by
  show mdEx.high ≠ mdEx.high + 1
  norm_num [mdEx]

/-- C9 (amended): before display the offset is added to every
price-bearing field (price, high, low, ma50, ema200, bollinger, ichimoku,
pivots) and to none of the pure indicator fields; before being sent to the
AI it is added to price, ema200, ichimoku, pivots and bollinger while
high, low and ma50 stay raw; and the indicator values carried by the
feature object are computed from the raw candle series only — identical
for any two offsets (the offset-bearing fields differ exactly by the
offsets). -/
theorem C9_offset_plumbing :
    (∀ (m : MarketData) (o : ℚ),
      (displayData m o).price = m.price + o ∧
      (displayData m o).high = m.high + o ∧
      (displayData m o).low = m.low + o ∧
      (displayData m o).ma50 = m.ma50 + o ∧
      (displayData m o).ema200 = m.ema200 + o ∧
      (displayData m o).bollinger =
        ⟨m.bollinger.upper + o, m.bollinger.middle + o, m.bollinger.lower + o⟩ ∧
      (displayData m o).ichimoku.tenkan = m.ichimoku.tenkan + o ∧
      (displayData m o).ichimoku.kijun = m.ichimoku.kijun + o ∧
      (displayData m o).pivots =
        ⟨m.pivots.pivot + o, m.pivots.r1 + o, m.pivots.s1 + o,
          m.pivots.r2 + o, m.pivots.s2 + o⟩ ∧
      (displayData m o).rsi = m.rsi ∧
      (displayData m o).macd = m.macd ∧
      (displayData m o).stochK = m.stochK ∧
      (displayData m o).stochD = m.stochD ∧
      (displayData m o).atr = m.atr ∧
      (displayData m o).adx = m.adx) ∧
    (∀ (m : MarketData) (o : ℚ),
      (aiData m o).price = m.price + o ∧
      (aiData m o).ema200 = m.ema200 + o ∧
      (aiData m o).ichimoku.tenkan = m.ichimoku.tenkan + o ∧
      (aiData m o).ichimoku.kijun = m.ichimoku.kijun + o ∧
      (aiData m o).pivots =
        ⟨m.pivots.pivot + o, m.pivots.r1 + o, m.pivots.s1 + o,
          m.pivots.r2 + o, m.pivots.s2 + o⟩ ∧
      (aiData m o).bollinger =
        ⟨m.bollinger.upper + o, m.bollinger.middle + o, m.bollinger.lower + o⟩ ∧
      (aiData m o).high = m.high ∧
      (aiData m o).low = m.low ∧
      (aiData m o).ma50 = m.ma50 ∧
      (aiData m o).rsi = m.rsi ∧
      (aiData m o).macd = m.macd ∧
      (aiData m o).stochK = m.stochK ∧
      (aiData m o).stochD = m.stochD ∧
      (aiData m o).atr = m.atr ∧
      (aiData m o).adx = m.adx) ∧
    (∀ (prev : MarketData) (stored : List Candle) (c : Candle) (o₁ o₂ : ℚ),
      (aiData (tickMarketData prev stored c) o₁).rsi =
        (aiData (tickMarketData prev stored c) o₂).rsi ∧
      (aiData (tickMarketData prev stored c) o₁).macd =
        (aiData (tickMarketData prev stored c) o₂).macd ∧
      (aiData (tickMarketData prev stored c) o₁).stochK =
        (aiData (tickMarketData prev stored c) o₂).stochK ∧
      (aiData (tickMarketData prev stored c) o₁).stochD =
        (aiData (tickMarketData prev stored c) o₂).stochD ∧
      (aiData (tickMarketData prev stored c) o₁).atr =
        (aiData (tickMarketData prev stored c) o₂).atr ∧
      (aiData (tickMarketData prev stored c) o₁).adx =
        (aiData (tickMarketData prev stored c) o₂).adx ∧
      (aiData (tickMarketData prev stored c) o₁).bollinger.middle - o₁ =
        (aiData (tickMarketData prev stored c) o₂).bollinger.middle - o₂ ∧
      (aiData (tickMarketData prev stored c) o₁).pivots.pivot - o₁ =
        (aiData (tickMarketData prev stored c) o₂).pivots.pivot - o₂ ∧
      (aiData (tickMarketData prev stored c) o₁).ichimoku.tenkan - o₁ =
        (aiData (tickMarketData prev stored c) o₂).ichimoku.tenkan - o₂) := by
  refine ⟨fun m o => ?_, fun m o => ?_, fun prev stored c o₁ o₂ => ?_⟩
  · exact ⟨rfl, rfl, rfl, rfl, rfl, rfl, rfl, rfl, rfl, rfl, rfl, rfl, rfl, rfl, rfl⟩
  · exact ⟨rfl, rfl, rfl, rfl, rfl, rfl, rfl, rfl, rfl, rfl, rfl, rfl, rfl, rfl, rfl⟩
  · refine ⟨rfl, rfl, rfl, rfl, rfl, rfl, ?_, ?_, ?_⟩ <;> simp [aiData]

/-- C10: the fallback heuristic never returns NEUTRAL — although the
local variable is initialised to NEUTRAL, every branch of the rule
cascade overwrites it, so the returned type is always BUY, SELL or
WAIT. -/
theorem C10_never_neutral (data : MarketData) (tf : Timeframe) (jitter : ℚ) (ts : ℤ) :
    (generateOne data tf jitter ts).type ≠ SignalType.NEUTRAL := by
  show (mockTypeConf data).1 ≠ SignalType.NEUTRAL
  simp only [mockTypeConf]
  repeat' split
  all_goals simp

end Signal
